import Mathlib

/-!
Shallow embedding of the `sample-backend` request dispatcher
(`src/src/index.ts`): an `App` holding a two-level route registry
(`Map<string, Map<string, Handler>>`), an ordered middleware array, and a
shared `state` value, with a single dispatch entry point `fetch`.

Modelling conventions:
* JavaScript `Map<string, v>` is embedded as an association list
  `List (String × v)`; `Map.prototype.set` updates an existing key in place
  (preserving insertion order) and appends a new key, `Map.prototype.get`
  returns the bound value or `undefined` (here `Option`).
* Asynchronous, possibly-throwing middleware (`(c) => void | Promise<void>`,
  mutating the context it receives) are embedded as functions
  `Ctx → Except JsError Ctx` returning the possibly-mutated context;
  handlers as `Ctx → Except JsError Response`.  Sequential `await`s become
  sequential `Except.bind`s.
* The host platform's `Request`, `Response` and `URL` values are external
  to the repository; they are embedded as plain structures, and
  `new URL(req.url).pathname` (which throws on a malformed URL) as a
  partial pathname extractor `parsePathname`.
-/

set_option autoImplicit false

namespace SampleBackend

universe u v w

/-! ### JavaScript `Map` semantics on association lists -/

/-- `Map.prototype.get`: the value bound to `k`, if any. -/
def mapGet {α : Type u} : List (String × α) → String → Option α
  | [], _ => none
  | (k', v) :: rest, k => if k' = k then some v else mapGet rest k

/-- `Map.prototype.set`: update an existing binding in place (keeping
insertion order) or append a new one. -/
def mapSet {α : Type u} : List (String × α) → String → α → List (String × α)
  | [], k, v => [(k, v)]
  | (k', v') :: rest, k, v =>
    if k' = k then (k, v) :: rest else (k', v') :: mapSet rest k v

/-- `Map.prototype.has`. -/
def mapHas {α : Type u} (m : List (String × α)) (k : String) : Bool :=
  (mapGet m k).isSome

@[simp] theorem mapGet_mapSet_self {α : Type u} (m : List (String × α))
    (k : String) (v : α) : mapGet (mapSet m k v) k = some v := by
  induction m with
  | nil => simp [mapSet, mapGet]
  | cons hd tl ih =>
    obtain ⟨k', v'⟩ := hd
    by_cases h : k' = k <;> simp [mapSet, mapGet, h, ih]

theorem mapGet_mapSet_ne {α : Type u} (m : List (String × α))
    (k k' : String) (v : α) (h : k ≠ k') :
    mapGet (mapSet m k v) k' = mapGet m k' := by
  induction m with
  | nil => simp [mapSet, mapGet, h]
  | cons hd tl ih =>
    obtain ⟨k₀, v₀⟩ := hd
    by_cases h₀ : k₀ = k
    · subst h₀; simp [mapSet, mapGet, h]
    · simp [mapSet, mapGet, h₀, ih]

theorem mapSet_mapSet_self {α : Type u} (m : List (String × α))
    (k : String) (v v' : α) :
    mapSet (mapSet m k v) k v' = mapSet m k v' := by
  induction m with
  | nil => simp [mapSet]
  | cons hd tl ih =>
    obtain ⟨k₀, v₀⟩ := hd
    by_cases h₀ : k₀ = k <;> simp [mapSet, h₀, ih]

/-! ### HTTP values (opaque host types `Request` / `Response`) -/

/-- The host `Request`: method, URL, headers and body, as the dispatcher
and its callers observe them. -/
structure Request where
  url : String
  method : String
  headers : List (String × String) := []
  body : String := ""
deriving DecidableEq, Repr

/-- The host `Response`: constructed from a body, a status (default 200) and
headers (default none); never mutated after construction. -/
structure Response where
  body : String
  status : Nat := 200
  headers : List (String × String) := []
deriving DecidableEq, Repr

/-- `new Response("Not Found", { status: 404 })` — the 404 fallback built by
`fetch` when the registry has no entry for the request's path and method. -/
def notFoundResponse : Response :=
  { body := "Not Found", status := 404, headers := [] }

/-- A JavaScript exception escaping the dispatcher: either the `TypeError`
thrown by `new URL` on a malformed URL, or an arbitrary value raised by a
middleware or handler (its payload abstracted to a string tag). -/
inductive JsError : Type where
  | invalidURL : JsError
  | raised : String → JsError
deriving DecidableEq, Repr

/-! ### URL pathname extraction

`fetch` computes `new URL(req.url).pathname`.  `URL` is a host API, not
repository code; it is modelled from the spec: parsing fails (throws) when
the string has no `://` scheme separator, and the resulting pathname is the
part of the remainder from the first `/` up to the query string or fragment
(defaulting to `/`), so the query string never reaches the route lookup. -/

/-- The remainder of the character list after the first `://`; `none` when
there is no scheme separator (the malformed-URL case). -/
def afterSchemeSep : List Char → Option (List Char)
  | [] => none
  | c :: rest =>
    if c = ':' ∧ rest.take 2 = ['/', '/'] then some (rest.drop 2)
    else afterSchemeSep rest

/-- The pathname of the post-scheme remainder: strip the query string and
fragment, then keep everything from the first `/`; an absent path is `/`. -/
def pathnameOf (rest : List Char) : List Char :=
  let hostAndPath := rest.takeWhile (fun c => c ≠ '?' ∧ c ≠ '#')
  let p := hostAndPath.dropWhile (fun c => c ≠ '/')
  if p = [] then ['/'] else p

/-- `new URL(url).pathname`, or `none` when `new URL` would throw. -/
def parsePathname (url : String) : Option String :=
  match afterSchemeSep url.data with
  | none => none
  | some rest => some (String.mk (pathnameOf rest))

/-! ### The route registry: `Map<string, Map<string, Handler>>` -/

/-- The two-level route registry `#routes`, path ↦ method ↦ handler. -/
abbrev Routes (H : Type u) : Type u := List (String × List (String × H))

/-- `App.#addRoute(method, path, handler)`:
if the path has no inner map yet, install an empty one, then set the
handler under the method in the path's inner map. -/
def addRoute {H : Type u} (routes : Routes H) (method path : String)
    (handler : H) : Routes H :=
  let routes1 := if mapHas routes path then routes else mapSet routes path []
  match mapGet routes1 path with
  | some inner => mapSet routes1 path (mapSet inner method handler)
  | none => routes1

/-- The lookup `fetch` performs: `#routes.get(path)` then `.get(method)`. -/
def lookupRoute {H : Type u} (routes : Routes H) (path method : String) :
    Option H :=
  (mapGet routes path).bind fun inner => mapGet inner method

/-- The inner method map stored under `path`, empty when absent. -/
def innerOf {H : Type u} (routes : Routes H) (path : String) :
    List (String × H) :=
  (mapGet routes path).getD []

theorem addRoute_eq {H : Type u} (routes : Routes H) (method path : String)
    (handler : H) :
    addRoute routes method path handler =
      mapSet routes path (mapSet (innerOf routes path) method handler) := by
  unfold addRoute innerOf mapHas
  cases h : mapGet routes path with
  | none =>
    simp [h, mapSet_mapSet_self]
  | some inner =>
    simp [h]

@[simp] theorem lookupRoute_addRoute_self {H : Type u} (routes : Routes H)
    (method path : String) (handler : H) :
    lookupRoute (addRoute routes method path handler) path method =
      some handler := by
  rw [addRoute_eq]
  simp [lookupRoute]

theorem lookupRoute_mapSet_ne {H : Type u} (routes : Routes H)
    (path path' method' : String) (inner : List (String × H))
    (h : path' ≠ path) :
    lookupRoute (mapSet routes path inner) path' method' =
      lookupRoute routes path' method' := by
  simp [lookupRoute, mapGet_mapSet_ne routes path path' inner h.symm]

theorem lookupRoute_addRoute_frame {H : Type u} (routes : Routes H)
    (method path : String) (handler : H) (path' method' : String)
    (h : ¬(path' = path ∧ method' = method)) :
    lookupRoute (addRoute routes method path handler) path' method' =
      lookupRoute routes path' method' := by
  rw [addRoute_eq]
  by_cases hp : path' = path
  · subst hp
    have hm : method' ≠ method := fun hm => h ⟨rfl, hm⟩
    simp only [lookupRoute, mapGet_mapSet_self, Option.some_bind]
    rw [mapGet_mapSet_ne _ _ _ _ (fun e => hm e.symm)]
    unfold innerOf
    cases hg : mapGet routes path' with
    | none => simp [mapGet]
    | some inner => simp
  · exact lookupRoute_mapSet_ne _ _ _ _ _ hp

/-! ### Per-request context, middleware, handlers and the application view

`AppV` is the value of one `App` instance's three components — middleware
array, route registry and `state` — as they stand at the moment `fetch` is
invoked.  The scratch type `V` abstracts the `unknown` values stored in the
per-request `data` record, and `σ` abstracts the application `State`. -/

/-- The per-request `Context`: the request, the per-request scratch record
`data`, and the application-wide `state`. -/
structure Ctx (V : Type u) (σ : Type v) where
  req : Request
  data : List (String × V)
  state : σ

/-- A handler: `(c: Context) => Response | Promise<Response>`, possibly
throwing. -/
def Handler (V : Type u) (σ : Type v) : Type (max u v) :=
  Ctx V σ → Except JsError Response

/-- A middleware: `(c: Context) => void | Promise<void>`; it may mutate the
context it receives, so it is embedded as returning the updated context,
and it may throw. -/
def Mw (V : Type u) (σ : Type v) : Type (max u v) :=
  Ctx V σ → Except JsError (Ctx V σ)

/-- One `App` instance's components as seen by a single dispatch. -/
structure AppV (V : Type u) (σ : Type v) where
  routes : Routes (Handler V σ)
  middlewares : List (Mw V σ)
  state : σ

/-- `app.use(middleware)`: append to the middleware array. -/
def AppV.use {V : Type u} {σ : Type v} (app : AppV V σ) (mw : Mw V σ) :
    AppV V σ :=
  { app with middlewares := app.middlewares ++ [mw] }

/-- `app.get(path, handler)`. -/
def AppV.get {V : Type u} {σ : Type v} (app : AppV V σ) (path : String)
    (handler : Handler V σ) : AppV V σ :=
  { app with routes := addRoute app.routes "GET" path handler }

/-- `app.post(path, handler)`. -/
def AppV.post {V : Type u} {σ : Type v} (app : AppV V σ) (path : String)
    (handler : Handler V σ) : AppV V σ :=
  { app with routes := addRoute app.routes "POST" path handler }

/-- `app.put(path, handler)`. -/
def AppV.put {V : Type u} {σ : Type v} (app : AppV V σ) (path : String)
    (handler : Handler V σ) : AppV V σ :=
  { app with routes := addRoute app.routes "PUT" path handler }

/-- `app.delete(path, handler)`. -/
def AppV.delete {V : Type u} {σ : Type v} (app : AppV V σ) (path : String)
    (handler : Handler V σ) : AppV V σ :=
  { app with routes := addRoute app.routes "DELETE" path handler }

/-- `app.all(path, handler)`: four `#addRoute` calls, in source order
GET, POST, PUT, DELETE. -/
def AppV.all {V : Type u} {σ : Type v} (app : AppV V σ) (path : String)
    (handler : Handler V σ) : AppV V σ :=
  let r1 := addRoute app.routes "GET" path handler
  let r2 := addRoute r1 "POST" path handler
  let r3 := addRoute r2 "PUT" path handler
  let r4 := addRoute r3 "DELETE" path handler
  { app with routes := r4 }

/-- The context `fetch` builds: `{ req, data: {}, state: this.state }`. -/
def initCtx {V : Type u} {σ : Type v} (app : AppV V σ) (req : Request) :
    Ctx V σ :=
  { req := req, data := [], state := app.state }

/-- The middleware loop: `for (const mw of this.#middlewares) await mw(c)`,
each middleware awaited to completion before the next begins, a thrown
error aborting the loop. -/
def runMws {V : Type u} {σ : Type v} :
    List (Mw V σ) → Ctx V σ → Except JsError (Ctx V σ)
  | [], c => .ok c
  | mw :: rest, c => (mw c).bind (runMws rest)

/-- `App.fetch(req)`: build a context with fresh empty scratch, run every
middleware sequentially, parse the URL's pathname, look up
`(pathname, method)` in the registry, and either await the handler or
return the synthesized 404. -/
def fetch {V : Type u} {σ : Type v} (app : AppV V σ) (req : Request) :
    Except JsError Response :=
  (runMws app.middlewares (initCtx app req)).bind fun c =>
    match parsePathname req.url with
    | none => .error .invalidURL
    | some path =>
      match lookupRoute app.routes path req.method with
      | some handler => handler c
      | none => .ok notFoundResponse

/-! ### Trace instrumentation of `fetch`

`fetchTr` is `fetch` with an event log recording each middleware
invocation (by its pipeline index), the registry lookup, and whether the
handler ran or the 404 fallback was taken; its first component coincides
with `fetch`. -/

/-- Observable dispatch events. -/
inductive Ev : Type where
  | mwCall : Nat → Ev
  | lookupEv : String → String → Ev
  | handlerRun : Ev
  | fallback404 : Ev
deriving DecidableEq, Repr

/-- The middleware loop, logging each invocation with its pipeline index
(`i` is the index of the first middleware of the remaining list). -/
def runMwsTr {V : Type u} {σ : Type v} (i : Nat) :
    List (Mw V σ) → Ctx V σ → Except JsError (Ctx V σ) × List Ev
  | [], c => (.ok c, [])
  | mw :: rest, c =>
    match mw c with
    | .error e => (.error e, [Ev.mwCall i])
    | .ok c' =>
      match runMwsTr (i + 1) rest c' with
      | (r, t) => (r, Ev.mwCall i :: t)

/-- `fetch` with its event log. -/
def fetchTr {V : Type u} {σ : Type v} (app : AppV V σ) (req : Request) :
    Except JsError Response × List Ev :=
  match runMwsTr 0 app.middlewares (initCtx app req) with
  | (.error e, t) => (.error e, t)
  | (.ok c, t) =>
    match parsePathname req.url with
    | none => (.error .invalidURL, t)
    | some path =>
      match lookupRoute app.routes path req.method with
      | some handler =>
        (handler c, t ++ [Ev.lookupEv path req.method, Ev.handlerRun])
      | none =>
        (.ok notFoundResponse,
          t ++ [Ev.lookupEv path req.method, Ev.fallback404])

@[simp] theorem exceptBind_ok {ε : Type u} {α : Type v} {β : Type w}
    (a : α) (f : α → Except ε β) :
    (Except.ok a : Except ε α).bind f = f a := rfl

@[simp] theorem exceptBind_error {ε : Type u} {α : Type v}
    {β : Type w} (e : ε) (f : α → Except ε β) :
    (Except.error e : Except ε α).bind f = .error e := rfl

theorem runMwsTr_fst {V : Type u} {σ : Type v} (i : Nat)
    (mws : List (Mw V σ)) (c : Ctx V σ) :
    (runMwsTr i mws c).1 = runMws mws c := by
  induction mws generalizing i c with
  | nil => rfl
  | cons mw rest ih =>
    simp only [runMwsTr, runMws]
    cases hm : mw c with
    | error e => rfl
    | ok c' =>
      have h3 := ih (i + 1) c'
      cases h2 : runMwsTr (i + 1) rest c' with
      | mk r t =>
        rw [h2] at h3
        simp [h2, h3]

theorem fetchTr_fst {V : Type u} {σ : Type v} (app : AppV V σ)
    (req : Request) : (fetchTr app req).1 = fetch app req := by
  unfold fetchTr fetch
  rw [← runMwsTr_fst 0 app.middlewares (initCtx app req)]
  cases hr : runMwsTr 0 app.middlewares (initCtx app req) with
  | mk r t =>
    cases r with
    | error e => rfl
    | ok c =>
      cases hp : parsePathname req.url with
      | none => rfl
      | some path =>
        cases hl : lookupRoute app.routes path req.method with
        | none => simp [hl]
        | some handler => simp [hl]

theorem runMwsTr_ok {V : Type u} {σ : Type v} (i : Nat)
    (mws : List (Mw V σ)) (c c' : Ctx V σ) (h : runMws mws c = .ok c') :
    runMwsTr i mws c = (.ok c', (List.range' i mws.length).map Ev.mwCall) := by
  induction mws generalizing i c with
  | nil =>
    simp only [runMws] at h
    cases h
    rfl
  | cons mw rest ih =>
    simp only [runMws] at h
    cases hm : mw c with
    | error e => rw [hm] at h; simp at h
    | ok c₀ =>
      rw [hm] at h
      simp only [exceptBind_ok] at h
      simp [runMwsTr, hm, ih (i + 1) c₀ h, List.range']

theorem runMwsTr_error {V : Type u} {σ : Type v} (i : Nat)
    (mws : List (Mw V σ)) (c : Ctx V σ) (e : JsError)
    (h : runMws mws c = .error e) :
    (runMwsTr i mws c).1 = .error e ∧
      ∀ ev ∈ (runMwsTr i mws c).2, ∃ j, ev = Ev.mwCall j := by
  induction mws generalizing i c with
  | nil => simp [runMws] at h
  | cons mw rest ih =>
    simp only [runMws] at h
    cases hm : mw c with
    | error e₀ =>
      rw [hm] at h
      simp only [exceptBind_error] at h
      cases h
      refine ⟨by simp [runMwsTr, hm], ?_⟩
      intro ev hev
      simp [runMwsTr, hm] at hev
      exact ⟨i, hev⟩
    | ok c₀ =>
      rw [hm] at h
      simp only [exceptBind_ok] at h
      obtain ⟨h1, h2⟩ := ih (i + 1) c₀ h
      cases h3 : runMwsTr (i + 1) rest c₀ with
      | mk r t =>
        rw [h3] at h1 h2
        refine ⟨by simp [runMwsTr, hm, h3, h1], ?_⟩
        intro ev hev
        simp only [runMwsTr, hm, h3, List.mem_cons] at hev
        rcases hev with rfl | hev
        · exact ⟨i, rfl⟩
        · exact h2 ev hev

/-! ### Heap model of `App` objects and `withState`

`withState` copies *references*: `newApp.#routes = this.#routes` and
`newApp.#middlewares = this.#middlewares` alias the same containers, while
`newApp.state` is the newly supplied value.  To reason about aliasing, app
instances and their two containers live in explicit heaps addressed by
`Nat` references; `H` abstracts handlers and `M` middleware (their
behaviour is irrelevant to the sharing claims). -/

/-- One `App` object on the heap: references to its `#routes` and
`#middlewares` containers, plus its directly-held `state` field. -/
structure AppObj (σ : Type v) where
  routesRef : Nat
  mwRef : Nat
  state : σ
deriving DecidableEq, Repr

/-- The heap: all `App` objects, all route-registry containers and all
middleware-array containers, addressed by position. -/
structure World (H : Type u) (M : Type w) (σ : Type v) where
  apps : List (AppObj σ)
  routesH : List (Routes H)
  mwH : List (List M)

/-- `new App()` (as used standalone): allocate fresh empty containers and a
fresh app object pointing at them, `state` holding the given value
(`{} as State` in the source). -/
def World.newApp {H : Type u} {M : Type w} {σ : Type v} (wo : World H M σ)
    (s : σ) : World H M σ × Nat :=
  ({ apps := wo.apps ++ [⟨wo.routesH.length, wo.mwH.length, s⟩],
     routesH := wo.routesH ++ [([] : Routes H)],
     mwH := wo.mwH ++ [([] : List M)] }, wo.apps.length)

/-- `app.withState(state)`: `new App<T>()` (allocating transient fresh
containers that immediately become garbage), then overwrite the new
object's `#routes` and `#middlewares` references with `app`'s and its
`state` field with the supplied value.  Returns the unchanged world on a
dangling app reference. -/
def World.withState {H : Type u} {M : Type w} {σ : Type v}
    (wo : World H M σ) (a : Nat) (s : σ) : World H M σ × Nat :=
  match wo.apps[a]? with
  | none => (wo, a)
  | some appA =>
    let alloc := wo.newApp s
    let w1 := alloc.1
    let b := alloc.2
    ({ w1 with
        apps := w1.apps.set b ⟨appA.routesRef, appA.mwRef, s⟩ }, b)

/-- `app.state = s`: mutate the `state` field of one app object. -/
def World.setState {H : Type u} {M : Type w} {σ : Type v} (wo : World H M σ)
    (a : Nat) (s : σ) : World H M σ :=
  match wo.apps[a]? with
  | none => wo
  | some appA =>
    { wo with apps := wo.apps.set a ⟨appA.routesRef, appA.mwRef, s⟩ }

/-- The `state` field of app object `a`. -/
def World.stateVia {H : Type u} {M : Type w} {σ : Type v} (wo : World H M σ)
    (a : Nat) : Option σ :=
  (wo.apps[a]?).map AppObj.state

/-- `app.#addRoute(method, path, handler)` through app object `a`: mutate
the routes container `a` references. -/
def World.addRouteVia {H : Type u} {M : Type w} {σ : Type v}
    (wo : World H M σ) (a : Nat) (method path : String) (handler : H) :
    World H M σ :=
  match wo.apps[a]? with
  | none => wo
  | some appA =>
    match wo.routesH[appA.routesRef]? with
    | none => wo
    | some r =>
      { wo with
          routesH :=
            wo.routesH.set appA.routesRef (addRoute r method path handler) }

/-- `app.use(middleware)` through app object `a`: push onto the middleware
array `a` references. -/
def World.useVia {H : Type u} {M : Type w} {σ : Type v} (wo : World H M σ)
    (a : Nat) (mw : M) : World H M σ :=
  match wo.apps[a]? with
  | none => wo
  | some appA =>
    match wo.mwH[appA.mwRef]? with
    | none => wo
    | some ms =>
      { wo with mwH := wo.mwH.set appA.mwRef (ms ++ [mw]) }

/-- The registry lookup as `fetch` through app object `a` would perform
it. -/
def World.lookupVia {H : Type u} {M : Type w} {σ : Type v} (wo : World H M σ)
    (a : Nat) (path method : String) : Option H :=
  (wo.apps[a]?).bind fun appA =>
    (wo.routesH[appA.routesRef]?).bind fun r => lookupRoute r path method

/-- The middleware pipeline app object `a` would run. -/
def World.middlewaresVia {H : Type u} {M : Type w} {σ : Type v}
    (wo : World H M σ) (a : Nat) : Option (List M) :=
  (wo.apps[a]?).bind fun appA => wo.mwH[appA.mwRef]?

/-! ### Interleaved execution of two dispatches

The host scheduler is single-threaded and cooperative: suspension points
are exactly the `await`s of the middleware loop, so one request's dispatch
is a sequence of atomic middleware steps on its own scratch record and the
shared application state, and two in-flight dispatches interleave as an
arbitrary merge of their step sequences.  A middleware here is a state
transformer on (own scratch, shared state) — exactly the access the source
grants it through its `Context`. -/

/-- A middleware as the interleaving model sees it: it may read and write
its request's scratch record and the shared application state. -/
def CMw (V : Type u) (σ : Type v) : Type (max u v) :=
  List (String × V) → σ → List (String × V) × σ

/-- One in-flight dispatch: its per-request scratch and the middleware it
has not yet run. -/
structure Task (V : Type u) (σ : Type v) where
  scratch : List (String × V)
  pending : List (CMw V σ)

/-- The start of a dispatch: `data: {}` — a fresh empty scratch — with the
whole pipeline pending. -/
def spawn {V : Type u} {σ : Type v} (mws : List (CMw V σ)) : Task V σ :=
  { scratch := [], pending := mws }

/-- Two interleaved dispatches over the one shared application state. -/
structure Sys (V : Type u) (σ : Type v) where
  ta : Task V σ
  tb : Task V σ
  shared : σ

/-- Which request the scheduler resumes next. -/
inductive Who : Type where
  | reqA : Who
  | reqB : Who
deriving DecidableEq, Repr

/-- Run one task's next pending middleware (a no-op once its pipeline is
exhausted). -/
def stepTask {V : Type u} {σ : Type v} (t : Task V σ) (s : σ) :
    Task V σ × σ :=
  match t.pending with
  | [] => (t, s)
  | mw :: rest =>
    match mw t.scratch s with
    | (d', s') => ({ scratch := d', pending := rest }, s')

/-- One scheduler step: resume the chosen request until its next
suspension point. -/
def step {V : Type u} {σ : Type v} (sys : Sys V σ) (who : Who) : Sys V σ :=
  match who with
  | .reqA =>
    match stepTask sys.ta sys.shared with
    | (t', s') => { sys with ta := t', shared := s' }
  | .reqB =>
    match stepTask sys.tb sys.shared with
    | (t', s') => { sys with tb := t', shared := s' }

/-- Run a whole schedule (an arbitrary interleaving of the two requests'
steps). -/
def runSched {V : Type u} {σ : Type v} (sys : Sys V σ) (sched : List Who) :
    Sys V σ :=
  sched.foldl step sys

theorem step_reqA_tb {V : Type u} {σ : Type v} (sys : Sys V σ) :
    (step sys .reqA).tb = sys.tb := by
  unfold step stepTask
  cases sys.ta.pending with
  | nil => rfl
  | cons mw rest => rfl

theorem step_reqB_ta {V : Type u} {σ : Type v} (sys : Sys V σ) :
    (step sys .reqB).ta = sys.ta := by
  unfold step stepTask
  cases sys.tb.pending with
  | nil => rfl
  | cons mw rest => rfl

/-! ### Concrete instances used by the witness theorems -/

/-- A concrete handler answering `"hi"`. -/
def hwHi : Handler Nat Nat := fun _ => .ok { body := "hi" }

/-- A second concrete handler, distinguishable from `hwHi`. -/
def hwBye : Handler Nat Nat := fun _ => .ok { body := "bye", status := 201 }

/-- A concrete middleware writing `c.data.t = 1`. -/
def mwT : Mw Nat Nat := fun c => .ok { c with data := mapSet c.data "t" 1 }

/-- A concrete middleware writing `c.data.u = 2`. -/
def mwU : Mw Nat Nat := fun c => .ok { c with data := mapSet c.data "u" 2 }

/-- A concrete middleware that throws. -/
def mwBoom : Mw Nat Nat := fun _ => .error (.raised "boom")

/-! ### The claims -/

/-- C1: for every application and every registered (path, method, handler)
triple, dispatching via `fetch` a request whose URL path component equals
that path and whose method equals that method invokes that handler on the
request's `Context` and returns the handler's `Response` exactly — `fetch`
returns precisely the handler's result, so status, headers and body are
preserved verbatim. -/
theorem c1_dispatch_invokes_registered_handler {V : Type u} {σ : Type v}
    (app : AppV V σ) (req : Request) (c' : Ctx V σ) (path : String)
    (handler : Handler V σ)
    (hmw : runMws app.middlewares (initCtx app req) = .ok c')
    (hurl : parsePathname req.url = some path)
    (hroute : lookupRoute app.routes path req.method = some handler) :
    fetch app req = handler c' := by
  simp [fetch, hmw, hurl, hroute]

/-- Witness for C1: a concrete app with `GET /hi ↦ hwHi` and no middleware
dispatches `GET http://h/hi` to `hwHi`. -/
theorem c1_witness :
    fetch { routes := addRoute [] "GET" "/hi" hwHi, middlewares := [],
            state := 0 }
        { url := "http://h/hi", method := "GET" } =
      hwHi (initCtx
        { routes := addRoute [] "GET" "/hi" hwHi, middlewares := [],
          state := 0 }
        { url := "http://h/hi", method := "GET" }) :=
  c1_dispatch_invokes_registered_handler
    { routes := addRoute [] "GET" "/hi" hwHi, middlewares := [], state := 0 }
    { url := "http://h/hi", method := "GET" } _ "/hi" hwHi rfl (by decide) rfl

/-- C2: for every request whose (path, method) pair was never registered,
`fetch` returns a synthesized `Response` with status 404, body
`"Not Found"` and no headers, whatever the middleware did to the context
(any successful outcome `c'`), and the no-match case is an `Except.ok`
value, never a thrown error. -/
theorem c2_unmatched_gives_404 {V : Type u} {σ : Type v} (app : AppV V σ)
    (req : Request) (c' : Ctx V σ) (path : String)
    (hmw : runMws app.middlewares (initCtx app req) = .ok c')
    (hurl : parsePathname req.url = some path)
    (hroute : lookupRoute app.routes path req.method = none) :
    fetch app req =
      .ok { body := "Not Found", status := 404, headers := [] } := by
  simp [fetch, hmw, hurl, hroute, notFoundResponse]

/-- Witness for C2: an app with no routes and a scratch-writing middleware
404s on `GET http://h/missing`. -/
theorem c2_witness :
    fetch { routes := ([] : Routes (Handler Nat Nat)), middlewares := [mwT],
            state := 0 }
        { url := "http://h/missing", method := "GET" } =
      .ok { body := "Not Found", status := 404, headers := [] } :=
  c2_unmatched_gives_404
    { routes := [], middlewares := [mwT], state := 0 }
    { url := "http://h/missing", method := "GET" }
    { req := { url := "http://h/missing", method := "GET" },
      data := [("t", 1)], state := 0 }
    "/missing" rfl (by decide) rfl

/-- C6: the registry keeps at most one handler per (path, method) pair —
after any registration, lookup of that pair yields exactly the handler
just stored, silently replacing a previous one — and dispatching after a
re-registration invokes only the latest-registered handler. -/
theorem c6_reregistration_replaces {V : Type u} {σ : Type v}
    (app : AppV V σ) (method path : String) (h₁ h₂ : Handler V σ)
    (req : Request) (c' : Ctx V σ)
    (hmw : runMws app.middlewares (initCtx app req) = .ok c')
    (hurl : parsePathname req.url = some path)
    (hmethod : req.method = method) :
    lookupRoute (addRoute (addRoute app.routes method path h₁)
        method path h₂) path method = some h₂ ∧
    fetch ({ app with
        routes := addRoute (addRoute app.routes method path h₁)
          method path h₂ }) req = h₂ c' := by
  refine ⟨lookupRoute_addRoute_self _ _ _ _, ?_⟩
  have h2 : initCtx ({ app with
      routes := addRoute (addRoute app.routes method path h₁)
        method path h₂ }) req = initCtx app req := rfl
  simp [fetch, h2, hmw, hurl, hmethod, lookupRoute_addRoute_self]

/-- Witness for C6: re-registering `GET /hi` with `hwBye` over `hwHi` makes
dispatch invoke `hwBye`. -/
theorem c6_witness :
    lookupRoute (addRoute (addRoute ([] : Routes (Handler Nat Nat))
        "GET" "/hi" hwHi) "GET" "/hi" hwBye) "/hi" "GET" = some hwBye ∧
    fetch { routes := addRoute (addRoute [] "GET" "/hi" hwHi)
              "GET" "/hi" hwBye,
            middlewares := [], state := 0 }
        { url := "http://h/hi", method := "GET" } =
      hwBye (initCtx
        { routes := addRoute (addRoute [] "GET" "/hi" hwHi)
            "GET" "/hi" hwBye, middlewares := [], state := 0 }
        { url := "http://h/hi", method := "GET" }) :=
  c6_reregistration_replaces
    { routes := [], middlewares := [], state := 0 }
    "GET" "/hi" hwHi hwBye { url := "http://h/hi", method := "GET" } _
    rfl (by decide) rfl

/-- C7: `all(path, h)` is exactly the four individual registrations of `h`
under GET, POST, PUT and DELETE for that path — the same `AppV` as
`get`, `post`, `put`, `delete` chained — and dispatching a request for
that path with any of the four methods invokes `h`. -/
theorem c7_all_is_four_registrations {V : Type u} {σ : Type v}
    (app : AppV V σ) (path : String) (handler : Handler V σ) (req : Request)
    (c' : Ctx V σ) (m : String)
    (hm : m = "GET" ∨ m = "POST" ∨ m = "PUT" ∨ m = "DELETE")
    (hmw : runMws app.middlewares (initCtx app req) = .ok c')
    (hurl : parsePathname req.url = some path)
    (hmethod : req.method = m) :
    AppV.all app path handler =
      AppV.delete (AppV.put (AppV.post (AppV.get app path handler)
        path handler) path handler) path handler ∧
    lookupRoute (AppV.all app path handler).routes path m = some handler ∧
    fetch (AppV.all app path handler) req = handler c' := by
  have hlook : lookupRoute (AppV.all app path handler).routes path m =
      some handler := by
    unfold AppV.all
    rcases hm with rfl | rfl | rfl | rfl
    · rw [lookupRoute_addRoute_frame _ _ _ _ _ _ (by simp),
        lookupRoute_addRoute_frame _ _ _ _ _ _ (by simp),
        lookupRoute_addRoute_frame _ _ _ _ _ _ (by simp),
        lookupRoute_addRoute_self]
    · rw [lookupRoute_addRoute_frame _ _ _ _ _ _ (by simp),
        lookupRoute_addRoute_frame _ _ _ _ _ _ (by simp),
        lookupRoute_addRoute_self]
    · rw [lookupRoute_addRoute_frame _ _ _ _ _ _ (by simp),
        lookupRoute_addRoute_self]
    · rw [lookupRoute_addRoute_self]
  refine ⟨rfl, hlook, ?_⟩
  have h1 : (AppV.all app path handler).middlewares = app.middlewares := rfl
  have h2 : initCtx (AppV.all app path handler) req = initCtx app req := rfl
  simp [fetch, h1, h2, hmw, hurl, hmethod, hlook]

/-- Witness for C7: after `all("/x", hwHi)`, a `POST /x` dispatch invokes
`hwHi`. -/
theorem c7_witness :
    lookupRoute (AppV.all
        { routes := ([] : Routes (Handler Nat Nat)), middlewares := [],
          state := 0 } "/x" hwHi).routes "/x" "POST" = some hwHi ∧
    fetch (AppV.all { routes := [], middlewares := [], state := 0 }
        "/x" hwHi) { url := "http://h/x", method := "POST" } =
      hwHi (initCtx (AppV.all
        { routes := [], middlewares := [], state := 0 } "/x" hwHi)
        { url := "http://h/x", method := "POST" }) :=
  And.intro
    (c7_all_is_four_registrations
      { routes := [], middlewares := [], state := 0 } "/x" hwHi
      { url := "http://h/x", method := "POST" } _ "POST"
      (by decide) rfl (by decide) rfl).2.1
    (c7_all_is_four_registrations
      { routes := [], middlewares := [], state := 0 } "/x" hwHi
      { url := "http://h/x", method := "POST" } _ "POST"
      (by decide) rfl (by decide) rfl).2.2

/-- C10: registering a handler — directly via `#addRoute` (which is what
`get`/`post`/`put`/`delete` call) or via `all` — leaves every other
(path, method) binding unchanged: lookup of any pair other than the
registered one(s) returns exactly what it returned before. -/
theorem c10_registration_frame {V : Type u} {σ : Type v} (app : AppV V σ)
    (method path : String) (handler : Handler V σ) (p' m' : String) :
    (¬(p' = path ∧ m' = method) →
      lookupRoute (addRoute app.routes method path handler) p' m' =
        lookupRoute app.routes p' m') ∧
    (¬(p' = path ∧ m' = "GET") →
      lookupRoute (AppV.get app path handler).routes p' m' =
        lookupRoute app.routes p' m') ∧
    (¬(p' = path ∧ m' = "POST") →
      lookupRoute (AppV.post app path handler).routes p' m' =
        lookupRoute app.routes p' m') ∧
    (¬(p' = path ∧ m' = "PUT") →
      lookupRoute (AppV.put app path handler).routes p' m' =
        lookupRoute app.routes p' m') ∧
    (¬(p' = path ∧ m' = "DELETE") →
      lookupRoute (AppV.delete app path handler).routes p' m' =
        lookupRoute app.routes p' m') ∧
    (¬(p' = path ∧ (m' = "GET" ∨ m' = "POST" ∨ m' = "PUT" ∨ m' = "DELETE")) →
      lookupRoute (AppV.all app path handler).routes p' m' =
        lookupRoute app.routes p' m') := by
  refine ⟨fun h => lookupRoute_addRoute_frame _ _ _ _ _ _ h,
    fun h => lookupRoute_addRoute_frame _ _ _ _ _ _ h,
    fun h => lookupRoute_addRoute_frame _ _ _ _ _ _ h,
    fun h => lookupRoute_addRoute_frame _ _ _ _ _ _ h,
    fun h => lookupRoute_addRoute_frame _ _ _ _ _ _ h,
    fun h => ?_⟩
  unfold AppV.all
  rw [lookupRoute_addRoute_frame _ _ _ _ _ _ (fun hc => h ⟨hc.1, .inr (.inr (.inr hc.2))⟩),
    lookupRoute_addRoute_frame _ _ _ _ _ _ (fun hc => h ⟨hc.1, .inr (.inr (.inl hc.2))⟩),
    lookupRoute_addRoute_frame _ _ _ _ _ _ (fun hc => h ⟨hc.1, .inr (.inl hc.2)⟩),
    lookupRoute_addRoute_frame _ _ _ _ _ _ (fun hc => h ⟨hc.1, .inl hc.2⟩)]

/-- Witness for C10: registering `GET /hi` leaves the pre-existing binding
for `GET /other` untouched. -/
theorem c10_witness :
    lookupRoute (addRoute (addRoute ([] : Routes (Handler Nat Nat))
        "GET" "/other" hwBye) "GET" "/hi" hwHi) "/other" "GET" =
      lookupRoute (addRoute ([] : Routes (Handler Nat Nat))
        "GET" "/other" hwBye) "/other" "GET" :=
  (c10_registration_frame
    { routes := addRoute [] "GET" "/other" hwBye, middlewares := [],
      state := (0 : Nat) }
    "GET" "/hi" hwHi "/other" "GET").1 (by decide)

/-! ### Helper lemmas for the URL model -/

theorem takeWhile_append_stop {α : Type u} (p : α → Bool) (l : List α)
    (a : α) (t : List α) (h : p a = false) :
    (l ++ a :: t).takeWhile p = l.takeWhile p := by
  induction l with
  | nil => simp [List.takeWhile, h]
  | cons c l' ih =>
    cases hc : p c <;> simp [List.takeWhile_cons, hc, ih]

theorem afterSchemeSep_append (l x r : List Char)
    (h : afterSchemeSep l = some r) :
    afterSchemeSep (l ++ x) = some (r ++ x) := by
  induction l with
  | nil => simp [afterSchemeSep] at h
  | cons c rest ih =>
    rw [afterSchemeSep] at h
    by_cases hc : c = ':' ∧ rest.take 2 = ['/', '/']
    · rw [if_pos hc] at h
      obtain ⟨hc1, hc2⟩ := hc
      rcases rest with _ | ⟨a, _ | ⟨b, d⟩⟩
      · simp [List.take] at hc2
      · simp [List.take] at hc2
      · simp [List.take] at hc2
        obtain ⟨rfl, rfl⟩ := hc2
        simp only [List.drop] at h
        cases h
        subst hc1
        simp [afterSchemeSep, List.take, List.drop]
    · rw [if_neg hc] at h
      rw [List.cons_append, afterSchemeSep]
      by_cases hc' : c = ':' ∧ (rest ++ x).take 2 = ['/', '/']
      · exfalso
        obtain ⟨rfl, hc2'⟩ := hc'
        rcases rest with _ | ⟨a, _ | ⟨b, d⟩⟩
        · simp [afterSchemeSep] at h
        · simp [afterSchemeSep, List.take] at h
        · simp [List.take] at hc2'
          exact hc ⟨rfl, by simp [List.take, hc2'.1, hc2'.2]⟩
      · rw [if_neg hc']
        exact ih h

/-- C8: route lookup is exact string equality on both path and method — a
single registration is found under precisely the registered pair and no
other, with no normalization — the dispatcher strips the query string
(appending `?…` to a parseable URL never changes the pathname), and
`fetch` consults the registry at exactly (parsed pathname, `req.method`
unchanged). -/
theorem c8_exact_match_on_pathname_and_method {V : Type u} {σ : Type v}
    (method path p' m' : String) (handler : Handler V σ) (url q : String)
    (r : List Char) (app : AppV V σ) (req : Request) (c' : Ctx V σ)
    (pp : String) :
    (lookupRoute (addRoute ([] : Routes (Handler V σ)) method path handler)
        p' m' = if p' = path ∧ m' = method then some handler else none) ∧
    (afterSchemeSep url.data = some r →
      parsePathname (url ++ "?" ++ q) = parsePathname url) ∧
    (runMws app.middlewares (initCtx app req) = .ok c' →
      parsePathname req.url = some pp →
      fetch app req =
        match lookupRoute app.routes pp req.method with
        | some h => h c'
        | none => .ok notFoundResponse) := by
  refine ⟨?_, ?_, ?_⟩
  · by_cases hpm : p' = path ∧ m' = method
    · obtain ⟨rfl, rfl⟩ := hpm
      simp [lookupRoute_addRoute_self]
    · rw [lookupRoute_addRoute_frame _ _ _ _ _ _ hpm, if_neg hpm]
      rfl
  · intro hsep
    have hdata : (url ++ "?" ++ q).data = url.data ++ ('?' :: q.data) := by
      simp [String.data_append]
    have hsep2 : afterSchemeSep (url.data ++ ('?' :: q.data)) =
        some (r ++ ('?' :: q.data)) := afterSchemeSep_append _ _ _ hsep
    unfold parsePathname
    rw [hdata, hsep2, hsep]
    have hpn : pathnameOf (r ++ ('?' :: q.data)) = pathnameOf r := by
      unfold pathnameOf
      rw [takeWhile_append_stop _ _ _ _ (by decide)]
    simp [hpn]
  · intro hmw hurl
    simp only [fetch, hmw, exceptBind_ok, hurl]

/-- Witness for C8: appending a query string to `http://h/a` leaves the
parsed pathname unchanged. -/
theorem c8_witness :
    parsePathname ("http://h/a" ++ "?" ++ "x=1") =
      parsePathname "http://h/a" :=
  (c8_exact_match_on_pathname_and_method "GET" "/a" "/a" "GET" hwHi
    "http://h/a" "x=1" ("h/a".data)
    { routes := [], middlewares := [], state := (0 : Nat) }
    { url := "http://h/a", method := "GET" }
    (initCtx { routes := [], middlewares := [], state := (0 : Nat) }
      { url := "http://h/a", method := "GET" }) "/a").2.1 (by decide)

/-- C4: on every dispatch whose middleware chain completes, the
instrumented dispatcher (whose result coincides with `fetch`) logs the
call of every middleware exactly once, by pipeline index in registration
order, strictly before any lookup/handler/fallback event — and this holds
with no assumption on the route match, i.e. also when no route matches. -/
theorem c4_middleware_once_in_order_before_handler {V : Type u}
    {σ : Type v} (app : AppV V σ) (req : Request) (c' : Ctx V σ)
    (hmw : runMws app.middlewares (initCtx app req) = .ok c') :
    (fetchTr app req).1 = fetch app req ∧
    ∃ t, (fetchTr app req).2 =
        (List.range app.middlewares.length).map Ev.mwCall ++ t ∧
      ∀ i, Ev.mwCall i ∉ t := by
  refine ⟨fetchTr_fst app req, ?_⟩
  have h0 := runMwsTr_ok 0 app.middlewares (initCtx app req) c' hmw
  cases hp : parsePathname req.url with
  | none =>
    refine ⟨[], ?_, by simp⟩
    rw [List.range_eq_range']
    simp [fetchTr, h0, hp]
  | some path =>
    cases hl : lookupRoute app.routes path req.method with
    | some handler =>
      refine ⟨[Ev.lookupEv path req.method, Ev.handlerRun], ?_, by simp⟩
      rw [List.range_eq_range']
      simp [fetchTr, h0, hp, hl]
    | none =>
      refine ⟨[Ev.lookupEv path req.method, Ev.fallback404], ?_, by simp⟩
      rw [List.range_eq_range']
      simp [fetchTr, h0, hp, hl]

/-- Witness for C4: a concrete dispatch with two scratch-writing
middlewares and no matching route satisfies the instrumentation tether. -/
theorem c4_witness :
    (fetchTr { routes := ([] : Routes (Handler Nat Nat)),
               middlewares := [mwT, mwU], state := 0 }
      { url := "http://h/none", method := "GET" }).1 =
    fetch { routes := ([] : Routes (Handler Nat Nat)),
            middlewares := [mwT, mwU], state := 0 }
      { url := "http://h/none", method := "GET" } :=
  (c4_middleware_once_in_order_before_handler
    { routes := [], middlewares := [mwT, mwU], state := 0 }
    { url := "http://h/none", method := "GET" }
    { req := { url := "http://h/none", method := "GET" },
      data := [("t", 1), ("u", 2)], state := 0 } rfl).1

/-- C9: errors are never caught by the dispatcher — a middleware chain
failure makes `fetch` return exactly that error and the event log shows
only middleware calls (no lookup, handler or fallback ran); after a
successful chain a malformed URL propagates the `URL` constructor's
error; and a handler's error is returned unchanged.  No retry or recovery
appears anywhere. -/
theorem c9_errors_propagate_uncaught {V : Type u} {σ : Type v}
    (app : AppV V σ) (req : Request) (e : JsError) (c' : Ctx V σ)
    (path : String) (handler : Handler V σ) :
    (runMws app.middlewares (initCtx app req) = .error e →
      fetch app req = .error e ∧
      ∀ ev ∈ (fetchTr app req).2, ∃ j, ev = Ev.mwCall j) ∧
    (runMws app.middlewares (initCtx app req) = .ok c' →
      parsePathname req.url = none →
      fetch app req = .error .invalidURL) ∧
    (runMws app.middlewares (initCtx app req) = .ok c' →
      parsePathname req.url = some path →
      lookupRoute app.routes path req.method = some handler →
      handler c' = .error e →
      fetch app req = .error e) := by
  refine ⟨fun hmw => ⟨by simp [fetch, hmw], ?_⟩,
    fun hmw hp => by simp [fetch, hmw, hp],
    fun hmw hp hl hh => by simp [fetch, hmw, hp, hl, hh]⟩
  · obtain ⟨h1, h2⟩ := runMwsTr_error 0 app.middlewares (initCtx app req)
      e hmw
    cases h3 : runMwsTr 0 app.middlewares (initCtx app req) with
    | mk r t =>
      rw [h3] at h1 h2
      simp only at h1
      subst h1
      intro ev hev
      apply h2
      simpa [fetchTr, h3] using hev

/-- Witness for C9: a throwing middleware makes `fetch` surface
`raised "boom"`. -/
theorem c9_witness :
    fetch { routes := ([] : Routes (Handler Nat Nat)),
            middlewares := [mwBoom], state := 0 }
      { url := "http://h/hi", method := "GET" } =
    .error (.raised "boom") :=
  ((c9_errors_propagate_uncaught
    { routes := [], middlewares := [mwBoom], state := 0 }
    { url := "http://h/hi", method := "GET" } (.raised "boom")
    (initCtx { routes := [], middlewares := [mwBoom], state := 0 }
      { url := "http://h/hi", method := "GET" })
    "/hi" hwHi).1 rfl).1

/-! ### Helper lemmas for the interleaving model -/

theorem runSched_no_reqB_tb {V : Type u} {σ : Type v} (sys : Sys V σ)
    (sched : List Who) (h : Who.reqB ∉ sched) :
    (runSched sys sched).tb = sys.tb := by
  induction sched generalizing sys with
  | nil => rfl
  | cons who rest ih =>
    have hrest : Who.reqB ∉ rest := fun hm => h (List.mem_cons_of_mem who hm)
    cases who with
    | reqB => exact absurd (List.mem_cons_self _ _) h
    | reqA =>
      show (runSched (step sys .reqA) rest).tb = sys.tb
      rw [ih (step sys .reqA) hrest, step_reqA_tb]

theorem runSched_no_reqA_ta {V : Type u} {σ : Type v} (sys : Sys V σ)
    (sched : List Who) (h : Who.reqA ∉ sched) :
    (runSched sys sched).ta = sys.ta := by
  induction sched generalizing sys with
  | nil => rfl
  | cons who rest ih =>
    have hrest : Who.reqA ∉ rest := fun hm => h (List.mem_cons_of_mem who hm)
    cases who with
    | reqA => exact absurd (List.mem_cons_self _ _) h
    | reqB =>
      show (runSched (step sys .reqB) rest).ta = sys.ta
      rw [ih (step sys .reqB) hrest, step_reqB_ta]

/-- C5: every dispatch starts from a fresh empty scratch (`data: {}` in
`fetch`, `spawn` in the interleaving model), and scratch is exclusively
owned: in any interleaved execution of two dispatches, scheduler segments
consisting only of the other request's steps leave a request's task — in
particular its scratch — completely unchanged, however the shared state
evolves; so scratch values written by one request's middleware are never
visible to the other's middleware or handler. -/
theorem c5_scratch_fresh_and_isolated {V : Type u} {σ : Type v}
    (mws : List (CMw V σ)) (app : AppV V σ) (req : Request) (sys : Sys V σ)
    (onlyA onlyB : List Who) (hA : Who.reqB ∉ onlyA)
    (hB : Who.reqA ∉ onlyB) :
    (spawn mws).scratch = [] ∧
    (initCtx app req).data = [] ∧
    (runSched sys onlyA).tb = sys.tb ∧
    (runSched sys onlyB).ta = sys.ta :=
  ⟨rfl, rfl, runSched_no_reqB_tb sys onlyA hA,
    runSched_no_reqA_ta sys onlyB hB⟩

/-- A concrete interleaving-model middleware: records the shared state in
scratch and increments the shared state. -/
def cmwProbe : CMw Nat Nat := fun d s => (mapSet d "k" s, s + 1)

/-- Witness for C5: two scheduler steps of request A leave request B's
task untouched. -/
theorem c5_witness :
    (runSched { ta := spawn [cmwProbe, cmwProbe], tb := spawn [cmwProbe],
                shared := 0 } [Who.reqA, Who.reqA]).tb =
      ({ ta := spawn [cmwProbe, cmwProbe], tb := spawn [cmwProbe],
         shared := 0 } : Sys Nat Nat).tb :=
  (c5_scratch_fresh_and_isolated [cmwProbe]
    { routes := [], middlewares := [], state := 0 }
    { url := "http://h/", method := "GET" }
    { ta := spawn [cmwProbe, cmwProbe], tb := spawn [cmwProbe],
      shared := 0 }
    [Who.reqA, Who.reqA] [Who.reqB] (by decide) (by decide)).2.2.1

/-! ### Helper lemmas for the heap model -/

theorem set_concat_length {α : Type u} (l : List α) (x y : α) :
    (l ++ [x]).set l.length y = l ++ [y] := by
  induction l with
  | nil => rfl
  | cons c t ih => simp [List.set, ih]

/-- C3: `withState` returns an application whose registry and middleware
pipeline are the same underlying containers as the source's — routes
present before the call, and routes or middleware registered through
either instance afterwards, are visible through both — while the two
`state` fields are independent: the rebound app holds exactly the supplied
value, the original keeps its own, and assigning either one's `state`
leaves the other's unchanged; no route or middleware is duplicated,
dropped or reset. -/
theorem c3_withState_shares_containers_independent_state {H : Type u}
    {M : Type w} {σ : Type v} (wo w' : World H M σ) (a b : Nat) (s s₂ : σ)
    (p m : String) (h : H) (mw : M) (ha : a < wo.apps.length)
    (hwf : ∀ appA, wo.apps[a]? = some appA →
      appA.routesRef < wo.routesH.length ∧ appA.mwRef < wo.mwH.length)
    (hws : wo.withState a s = (w', b)) :
    w'.stateVia b = some s ∧
    w'.stateVia a = wo.stateVia a ∧
    (w'.setState a s₂).stateVia b = some s ∧
    (w'.setState b s₂).stateVia a = wo.stateVia a ∧
    w'.lookupVia b p m = wo.lookupVia a p m ∧
    w'.middlewaresVia b = wo.middlewaresVia a ∧
    (w'.addRouteVia a m p h).lookupVia b p m = some h ∧
    (w'.addRouteVia b m p h).lookupVia a p m = some h ∧
    (w'.useVia a mw).middlewaresVia b =
      (wo.middlewaresVia a).map (fun ms => ms ++ [mw]) := by
  cases hA : wo.apps[a]? with
  | none =>
    exact absurd (List.getElem?_eq_none_iff.1 hA) (Nat.not_le_of_lt ha)
  | some appA =>
    obtain ⟨hr, hm⟩ := hwf appA hA
    have hws' : wo.withState a s =
        ({ apps := wo.apps ++ [⟨appA.routesRef, appA.mwRef, s⟩],
           routesH := wo.routesH ++ [([] : Routes H)],
           mwH := wo.mwH ++ [([] : List M)] }, wo.apps.length) := by
      simp [World.withState, World.newApp, hA, set_concat_length]
    rw [hws] at hws'
    injection hws' with hw1 hw2
    subst hw1
    subst hw2
    have hab : a ≠ wo.apps.length := Nat.ne_of_lt ha
    have fb : (wo.apps ++
        [(⟨appA.routesRef, appA.mwRef, s⟩ : AppObj σ)])[wo.apps.length]? =
        some ⟨appA.routesRef, appA.mwRef, s⟩ :=
      List.getElem?_concat_length _ _
    have fa : ∀ x : AppObj σ, (wo.apps ++ [x])[a]? = some appA := by
      intro x
      rw [List.getElem?_append, if_pos ha]
      exact hA
    have frH : (wo.routesH ++ [([] : Routes H)])[appA.routesRef]? =
        wo.routesH[appA.routesRef]? := by
      rw [List.getElem?_append, if_pos hr]
    have fmH : (wo.mwH ++ [([] : List M)])[appA.mwRef]? =
        wo.mwH[appA.mwRef]? := by
      rw [List.getElem?_append, if_pos hm]
    have hr0 : wo.routesH[appA.routesRef]? =
        some (wo.routesH[appA.routesRef]) := List.getElem?_eq_getElem hr
    have hm0 : wo.mwH[appA.mwRef]? = some (wo.mwH[appA.mwRef]) :=
      List.getElem?_eq_getElem hm
    have hrlen : appA.routesRef < (wo.routesH ++ [([] : Routes H)]).length := by
      simp only [List.length_append]
      exact Nat.lt_of_lt_of_le hr (Nat.le_add_right _ _)
    have hmlen : appA.mwRef < (wo.mwH ++ [([] : List M)]).length := by
      simp only [List.length_append]
      exact Nat.lt_of_lt_of_le hm (Nat.le_add_right _ _)
    refine ⟨?_, ?_, ?_, ?_, ?_, ?_, ?_, ?_, ?_⟩
    · simp [World.stateVia, fb]
    · simp [World.stateVia, fa, hA]
    · simp [World.setState, World.stateVia, fa, fb,
        List.getElem?_set_ne hab]
    · simp [World.setState, World.stateVia, fa, fb, hA,
        List.getElem?_set_ne (Ne.symm hab)]
    · simp [World.lookupVia, fa, fb, hA, frH]
    · simp [World.middlewaresVia, fa, fb, hA, fmH]
    · simp only [World.addRouteVia, World.lookupVia, fa, fb, frH, hr0,
        Option.some_bind]
      rw [List.getElem?_set_eq_of_lt _ hrlen]
      simp [lookupRoute_addRoute_self]
    · simp only [World.addRouteVia, World.lookupVia, fa, fb, frH, hr0,
        Option.some_bind]
      rw [List.getElem?_set_eq_of_lt _ hrlen]
      simp [lookupRoute_addRoute_self]
    · simp only [World.useVia, World.middlewaresVia, fa, fb, fmH, hm0, hA,
        Option.some_bind]
      rw [List.getElem?_set_eq_of_lt _ hmlen]
      simp [hm0]

/-- A concrete one-app world for the C3 witness. -/
def w0W : World Nat Nat Nat :=
  { apps := [⟨0, 0, 5⟩], routesH := [[]], mwH := [[]] }

/-- Witness for C3: in the one-app world, a route registered through the
original app after `withState` is reachable through the rebound app. -/
theorem c3_witness :
    (((w0W.withState 0 7).1.addRouteVia 0 "GET" "/" 42).lookupVia
        (w0W.withState 0 7).2 "/" "GET") = some 42 :=
  (c3_withState_shares_containers_independent_state w0W
    (w0W.withState 0 7).1 0 (w0W.withState 0 7).2 7 9 "/" "GET" 42 3
    (by decide)
    (fun appA hA => by
      rw [show w0W.apps[0]? = some ⟨0, 0, 5⟩ from rfl] at hA
      cases hA
      exact ⟨by decide, by decide⟩)
    rfl).2.2.2.2.2.2.1

end SampleBackend
